import Mathlib

/-!
Verification of the windsurf-auto-mcp request/response correlation engine.

The definitions below are a shallow embedding of the JavaScript/TypeScript
sources:

* `src/assets/mcp-server/index.js` — the stdio MCP server: the pending-waiter
  table `pendingRequests`, `callVSCodeCommand`, `handleVSCodeResponse`, the
  30 s timeout callback, the tool handlers `handleAskContinue` /
  `handleAskUser`, the dialog fallback `handlePopupProcess`, and the JSON-RPC
  dispatcher `handleToolCall` / `handleRequest`.
* `src/src/serverManager.ts` — the extension-side waiter table with
  `handleWebviewResponse` and `handleChatResponse`.
* `src/src/mcpTools.ts` — the pending-command slot `setPendingCommand` /
  `getPendingCommand` / `handleGetPendingCommand`.

JavaScript strings are modelled as Lean `String`; the JS string operations
used by the code (`trim`, `toLowerCase`, `includes`, `startsWith`) are
re-implemented over `String.data` so that everything evaluates inside the
kernel.  Promise settlement is made explicit: each waiter table carries an
append-only `settled` log recording every `resolve` / `reject` call, and
asynchronous callbacks (`setTimeout` firing, responses arriving) become
explicit events acting on the state.
-/

/-! ## JavaScript string primitives -/

/-- Embedding of `Array.prototype.isPrefix`-style check used below: decides
whether `pat` occurs as a contiguous infix of `l` (JS `String.prototype.includes`). -/
def listInfix (pat : List Char) : List Char → Bool
  | [] => pat.isEmpty
  | c :: rest => pat.isPrefixOf (c :: rest) || listInfix pat rest

/-- JS `big.includes(pat)`. -/
def strContains (big pat : String) : Bool :=
  listInfix pat.data big.data

/-- JS `String.prototype.trim`: strip leading and trailing whitespace. -/
def jsTrim (s : String) : String :=
  String.mk (((s.data.dropWhile Char.isWhitespace).reverse.dropWhile Char.isWhitespace).reverse)

/-- JS `String.prototype.toLowerCase` (ASCII range, as used by the code). -/
def jsToLower (s : String) : String :=
  String.mk (s.data.map Char.toLower)

/-- JS `String.prototype.startsWith`. -/
def jsStartsWith (s pre : String) : Bool :=
  pre.data.isPrefixOf s.data

/-! ## JavaScript values

The values that flow through `resolve(...)` in the code: `null`/`undefined`,
booleans, strings, and the continue-dialog answer object
`{continue, newInstruction}` (`continue` is rendered as the `cont` field). -/

inductive JSVal where
  | null : JSVal
  | bool : Bool → JSVal
  | str : String → JSVal
  | contAnswer : Bool → Option String → JSVal
deriving Repr, DecidableEq

/-- JS truthiness for the values above: `null`/`undefined`, `false` and `""`
are falsy, everything else (including any object) is truthy. -/
def JSVal.truthy : JSVal → Bool
  | .null => false
  | .bool b => b
  | .str s => s ≠ ""
  | .contAnswer _ _ => true

/-- JS template-literal rendering of a value (`${value}`), restricted to the
value shapes above. -/
def jsValAsString : JSVal → String
  | .null => "null"
  | .bool b => if b then "true" else "false"
  | .str s => s
  | .contAnswer _ _ => "[object Object]"

/-- Embedding of the guard `result && result.continue` (index.js line 373,
serverManager.ts line 284): field access on a non-object yields `undefined`,
which is falsy, and the short-circuit `&&` protects `null`. -/
def jsContinueFlag : JSVal → Bool
  | .contAnswer c _ => c
  | _ => false

/-- Embedding of the guard `result.newInstruction && result.newInstruction.trim()`
(index.js line 375, serverManager.ts line 286). -/
def jsNewInstructionGiven : JSVal → Bool
  | .contAnswer _ (some ni) => ni ≠ "" && jsTrim ni ≠ ""
  | _ => false

/-- The string interpolated for `${result.newInstruction}`; the guard above
ensures the `"undefined"` default is never used on the taken branch. -/
def jsNewInstructionStr : JSVal → String
  | .contAnswer _ (some ni) => ni
  | _ => "undefined"

/-! ## The pending-waiter table of index.js

`const pendingRequests = new Map()` (index.js line 54) keyed by requestId.
The waiter closures are not data, so the table is modelled by its key set;
settlement (calling the stored `resolve` or `reject`) is recorded in an
append-only log, which makes "the caller's promise is settled" observable. -/

inductive Settlement where
  | fulfilled : JSVal → Settlement
  | rejected : String → Settlement
deriving Repr, DecidableEq

structure BrokerState where
  table : List String
  settled : List (String × Settlement)
deriving Repr, DecidableEq

/-- The delay passed to `setTimeout` in `callVSCodeCommand` (index.js line 83):
`30000` ms, the fixed 30-second deadline. -/
def VSCODE_TIMEOUT_MS : Nat := 30000

/-- State effect of `callVSCodeCommand` (index.js lines 57-85): stores the
waiter under `requestId` (`pendingRequests.set`, which inserts or replaces,
leaving the key set unchanged when the key is already present) and schedules
the timeout callback after `VSCODE_TIMEOUT_MS`. -/
def callVSCodeCommand (s : BrokerState) (requestId : String) : BrokerState × Nat :=
  ({ s with table := if requestId ∈ s.table then s.table else requestId :: s.table },
   VSCODE_TIMEOUT_MS)

/-- Embedding of `handleVSCodeResponse` (index.js lines 88-94): if a waiter
for `requestId` exists, delete it and `resolve(result)`; otherwise do nothing. -/
def handleVSCodeResponse (s : BrokerState) (requestId : String) (result : JSVal) : BrokerState :=
  if requestId ∈ s.table then
    { table := s.table.filter (fun x => x != requestId),
      settled := s.settled ++ [(requestId, .fulfilled result)] }
  else s

/-- Embedding of the timeout callback scheduled in `callVSCodeCommand`
(index.js lines 78-83): if the waiter is still pending, delete it and
`reject(new Error('VSCode command timeout'))`; otherwise do nothing. -/
def timeoutFire (s : BrokerState) (requestId : String) : BrokerState :=
  if requestId ∈ s.table then
    { table := s.table.filter (fun x => x != requestId),
      settled := s.settled ++ [(requestId, .rejected "VSCode command timeout")] }
  else s

/-- The asynchronous events that touch the pending-waiter table. -/
inductive BrokerEvent where
  | register : String → BrokerEvent
  | respond : String → JSVal → BrokerEvent
  | fire : String → BrokerEvent
deriving Repr, DecidableEq

/-- Whether an event registers a waiter under `id`. -/
def eventRegisters : BrokerEvent → String → Bool
  | .register i, id => i == id
  | _, _ => false

def stepEvent (s : BrokerState) : BrokerEvent → BrokerState
  | .register i => (callVSCodeCommand s i).1
  | .respond i v => handleVSCodeResponse s i v
  | .fire i => timeoutFire s i

def runEvents (s : BrokerState) (es : List BrokerEvent) : BrokerState :=
  es.foldl stepEvent s

/-- Number of times the waiter for `id` has been settled (its promise
resolved or rejected). -/
def settleCount (s : BrokerState) (id : String) : Nat :=
  (s.settled.filter (fun p => p.1 == id)).length

/-! ## Basic table lemmas -/

theorem notMem_filter_bne (l : List String) (id : String) :
    id ∉ l.filter (fun x => x != id) := by
  simp [List.mem_filter]

theorem mem_filter_bne_of_ne (l : List String) (a id : String) (h : a ≠ id) :
    a ∈ l.filter (fun x => x != id) ↔ a ∈ l := by
  simp [List.mem_filter, bne_iff_ne, h]

theorem settled_append_count (l : List (String × Settlement)) (p : String × Settlement)
    (id : String) :
    ((l ++ [p]).filter (fun q => q.1 == id)).length
      = (l.filter (fun q => q.1 == id)).length + (if p.1 = id then 1 else 0) := by
  by_cases h : p.1 = id <;> simp [List.filter_append, h]

/-- Settlement log is append-only: no event ever erases a settlement. -/
theorem settleCount_step_mono (s : BrokerState) (e : BrokerEvent) (id : String) :
    settleCount s id ≤ settleCount (stepEvent s e) id := by
  cases e with
  | register i =>
      simp [stepEvent, callVSCodeCommand, settleCount]
  | respond i v =>
      simp only [stepEvent, handleVSCodeResponse]
      split
      · simp [settleCount, settled_append_count]
      · exact le_refl _
  | fire i =>
      simp only [stepEvent, timeoutFire]
      split
      · simp [settleCount, settled_append_count]
      · exact le_refl _

/-- Potential of a waiter id: settlements so far plus one more available if a
waiter is currently pending under that id. -/
def waiterPotential (s : BrokerState) (id : String) : Nat :=
  settleCount s id + (if id ∈ s.table then 1 else 0)

/-- A single event that does not register `id` never increases the potential
of `id`: settling consumes the pending entry it settles. -/
theorem waiterPotential_step_le (s : BrokerState) (e : BrokerEvent) (id : String)
    (h : eventRegisters e id = false) :
    waiterPotential (stepEvent s e) id ≤ waiterPotential s id := by
  cases e with
  | register i =>
      have hne : i ≠ id := by simpa [eventRegisters] using h
      simp only [stepEvent, callVSCodeCommand]
      by_cases hi : i ∈ s.table
      · simp [waiterPotential, hi]
      · simp only [hi, if_false]
        have : (id ∈ i :: s.table) ↔ (id ∈ s.table) := by
          simp [List.mem_cons, (Ne.symm hne)]
        simp [waiterPotential, settleCount, this]
  | respond i v =>
      simp only [stepEvent, handleVSCodeResponse]
      by_cases hi : i ∈ s.table
      · simp only [hi, if_true]
        by_cases hid : i = id
        · subst hid
          simp [waiterPotential, settleCount, settled_append_count, hi,
            notMem_filter_bne]
        · have hmem := mem_filter_bne_of_ne s.table id i (Ne.symm hid)
          simp [waiterPotential, settleCount, settled_append_count, hid, hmem]
      · simp [hi]
  | fire i =>
      simp only [stepEvent, timeoutFire]
      by_cases hi : i ∈ s.table
      · simp only [hi, if_true]
        by_cases hid : i = id
        · subst hid
          simp [waiterPotential, settleCount, settled_append_count, hi,
            notMem_filter_bne]
        · have hmem := mem_filter_bne_of_ne s.table id i (Ne.symm hid)
          simp [waiterPotential, settleCount, settled_append_count, hid, hmem]
      · simp [hi]

theorem waiterPotential_run_le (es : List BrokerEvent) (s : BrokerState) (id : String)
    (h : ∀ e ∈ es, eventRegisters e id = false) :
    waiterPotential (runEvents s es) id ≤ waiterPotential s id := by
  induction es generalizing s with
  | nil => exact le_refl _
  | cons e es ih =>
      have h1 : eventRegisters e id = false := h e (by simp)
      have h2 : ∀ e ∈ es, eventRegisters e id = false := fun x hx => h x (by simp [hx])
      calc waiterPotential (runEvents (stepEvent s e) es) id
          ≤ waiterPotential (stepEvent s e) id := ih (stepEvent s e) h2
        _ ≤ waiterPotential s id := waiterPotential_step_le s e id h1

theorem settleCount_run_mono (es : List BrokerEvent) (s : BrokerState) (id : String) :
    settleCount s id ≤ settleCount (runEvents s es) id := by
  induction es generalizing s with
  | nil => exact le_refl _
  | cons e es ih =>
      exact le_trans (settleCount_step_mono s e id) (ih (stepEvent s e))

/-! ## Tool results and the continue-dialog response texts

A tool handler's result is always `{content: [{type:'text', text}]}`; it is
modelled by its text. -/

structure ToolResult where
  text : String
deriving Repr, DecidableEq

/-- Text `'结果: should_continue=true'` (index.js line 374). -/
def contTrueBase : String := "结果: should_continue=true"

/-- Text prefix of the instruction block (index.js line 376). -/
def instrPre : String := "\n\n用户新指令: "

/-- Text suffix of the instruction block (index.js line 376). -/
def instrPost : String := "\n\n请立即执行用户的新指令，完成后再次调用 ask_continue 工具询问是否继续。"

/-- The instruction block appended when a non-blank new instruction was given. -/
def instrBlock (ins : String) : String := instrPre ++ ins ++ instrPost

/-- Idle-continue tail (index.js line 378). -/
def idleBlock : String := "\n\n用户选择继续对话，请等待用户的下一个指令，或主动询问用户需要什么帮助。完成后必须再次调用 ask_continue 工具。"

/-- Decline response (index.js line 382). -/
def contEndText : String := "结果: should_continue=false\n\n用户选择结束对话。感谢使用！"

/-- Response when both the extension command and the local popup failed
(index.js line 414). -/
def fallbackFailText : String := "结果: should_continue=false\n\n无法显示继续对话框，对话结束。"

/-- Idle-continue tail of the local-popup fallback (index.js line 405). -/
def fallbackIdleBlock : String := "\n\n用户选择继续对话，请等待用户的下一个指令。"

/-- Decline tail of the local-popup fallback (index.js line 408). -/
def fallbackEndBlock : String := "\n\n用户选择结束对话。感谢使用！"

/-- The response text computed from a resolved continue-dialog answer; this
block is written out identically in index.js lines 373-382 (primary path of
`handleAskContinue`) and serverManager.ts lines 284-304 (`handleWebviewResponse`). -/
def continueResponseText (result : JSVal) : String :=
  if jsContinueFlag result then
    if jsNewInstructionGiven result then
      contTrueBase ++ instrBlock (jsNewInstructionStr result)
    else
      contTrueBase ++ idleBlock
  else contEndText

/-! ## The tool handlers of index.js

The handlers are `async`; each `await`ed collaborator is passed in as the
outcome it produced: `Except.error` is a rejected promise (the JS `catch`
path), `Except.ok` a fulfilled one.  `showLocalPopup` resolves on every path
(its process-error handlers call `resolve`), so its outcome is a plain value:
`Bool` for a `'confirm'` popup, `Option String` for an `'input'` popup. -/

/-- Embedding of `handleAskContinue` (index.js lines 356-417).  `primary` is
the outcome of `callVSCodeCommand('mcpService.showContinueDialog', ...)`;
`popupConfirm` and `popupInput` are the outcomes of the two `showLocalPopup`
calls on the fallback path (both wrapped in one `try`, so an exception from
either yields the conservative default). -/
def handleAskContinue (primary : Except String JSVal)
    (popupConfirm : Except String Bool) (popupInput : Except String (Option String)) :
    ToolResult :=
  match primary with
  | .ok result => ⟨continueResponseText result⟩
  | .error _ =>
    match popupConfirm with
    | .error _ => ⟨fallbackFailText⟩
    | .ok result =>
      if result then
        match popupInput with
        | .error _ => ⟨fallbackFailText⟩
        | .ok instruction =>
          match instruction with
          | some ins =>
            if ins ≠ "" && jsTrim ins ≠ "" then
              ⟨"结果: should_continue=" ++ (if result then "true" else "false")
                ++ instrBlock ins⟩
            else
              ⟨"结果: should_continue=" ++ (if result then "true" else "false")
                ++ fallbackIdleBlock⟩
          | none =>
            ⟨"结果: should_continue=" ++ (if result then "true" else "false")
              ++ fallbackIdleBlock⟩
      else
        ⟨"结果: should_continue=" ++ (if result then "true" else "false")
          ++ fallbackEndBlock⟩

/-- Embedding of `handleAskUser` (index.js lines 419-463).  `ty` is
`args.type` (`""` for a missing/falsy type); `primary` is the outcome of
`callVSCodeCommand('mcpService.showInputDialog', ...)`; `popupConfirmRes`
and `popupInputRes` are the values the fallback `showLocalPopup` resolves
with in its `'confirm'` and `'input'` modes. -/
def handleAskUser (ty : String) (primary : Except String JSVal)
    (popupConfirmRes : Bool) (popupInputRes : Option String) : ToolResult :=
  match primary with
  | .ok result =>
    if ty = "confirm" || ty = "input" || ty = "" then
      if ty = "confirm" then ⟨if result.truthy then "true" else "false"⟩
      else ⟨if result.truthy then jsValAsString result else ""⟩
    else ⟨"acknowledged"⟩
  | .error _ =>
    if ty = "confirm" then ⟨if popupConfirmRes then "true" else "false"⟩
    else if ty = "input" then
      ⟨match popupInputRes with
       | some s => if s ≠ "" then s else ""
       | none => ""⟩
    else ⟨"acknowledged"⟩

/-- The requestId generated by `handleAskUser` for input/confirm dialogs
(index.js line 426): the template literal `input_${Date.now()}` — the
millisecond clock reading is the only varying part, there is no random
component. -/
def mkInputRequestId (now : Nat) : String := "input_" ++ toString now

/-- The requestId generated by `handleAskContinue` (index.js line 363):
`continue_${Date.now()}_${Math.random().toString(36).substr(2, 9)}`. -/
def mkContinueRequestId (now : Nat) (rand : String) : String :=
  "continue_" ++ toString now ++ "_" ++ rand

/-! ## The extension-side waiter table (serverManager.ts)

`const pendingRequests = new Map<string, {resolve, reject}>()`
(serverManager.ts line 27).  Settlements resolve directly with a
`ToolResult`. -/

structure ExtBrokerState where
  table : List String
  settled : List (String × ToolResult)
deriving Repr, DecidableEq

/-- Embedding of `handleWebviewResponse` (serverManager.ts lines 277-315):
if a waiter exists for `requestId`, delete it and resolve it with the mapped
result — the continue-dialog mapping when the id starts with `continue_`,
otherwise the plain text `value || '用户取消了输入'`. -/
def handleWebviewResponse (s : ExtBrokerState) (requestId : String) (value : JSVal) :
    ExtBrokerState :=
  if requestId ∈ s.table then
    { table := s.table.filter (fun x => x != requestId),
      settled := s.settled ++
        [(requestId,
          ⟨if jsStartsWith requestId "continue_" then continueResponseText value
            else if value.truthy then jsValAsString value else "用户取消了输入"⟩)] }
  else s

/-- The three response kinds of `handleChatResponse` (serverManager.ts line
331); `cont` renders the source's `'continue'`. -/
inductive ChatRespType where
  | input : ChatRespType
  | confirm : ChatRespType
  | cont : ChatRespType
deriving Repr, DecidableEq

/-- JSON rendering `JSON.stringify({should_continue: b})`. -/
def jsonShouldContinue (b : Bool) : String :=
  "\x7b\"should_continue\":" ++ (if b then "true" else "false") ++ "\x7d"

/-- The result `handleChatResponse` builds from the user's reply
(serverManager.ts lines 332-365). -/
def chatResponseResult (userResponse : String) (ty : ChatRespType) : ToolResult :=
  match ty with
  | .input => ⟨userResponse⟩
  | .confirm =>
    if strContains (jsToLower userResponse) "是"
        || strContains (jsToLower userResponse) "yes"
        || strContains (jsToLower userResponse) "确认" then
      ⟨"confirmed"⟩
    else ⟨"cancelled"⟩
  | .cont =>
    ⟨jsonShouldContinue
      (strContains (jsToLower userResponse) "继续"
        || strContains (jsToLower userResponse) "是"
        || strContains (jsToLower userResponse) "yes")⟩

/-- Embedding of `handleChatResponse` (serverManager.ts lines 331-372): build
the result, then settle the matching waiter if one exists. -/
def handleChatResponse (s : ExtBrokerState) (requestId userResponse : String)
    (ty : ChatRespType) : ExtBrokerState :=
  if requestId ∈ s.table then
    { table := s.table.filter (fun x => x != requestId),
      settled := s.settled ++ [(requestId, chatResponseResult userResponse ty)] }
  else s

/-! ## The fallback dialog's result file (index.js `handlePopupProcess`)

`showWindowsPopup` generates a temp-file path and spawns PowerShell, which
writes the dialog result into that file; `handlePopupProcess` (index.js lines
212-231) reads it back on the `close` event.  The file system is abstracted
by what `handlePopupProcess` can observe about the one temp file; the pair
returned below is (value resolved with, does the temp file still exist after
the callback ran). -/

inductive PopupFileOutcome where
  | fileWith : String → PopupFileOutcome
  | fileReadError : PopupFileOutcome
  | noFile : PopupFileOutcome
deriving Repr, DecidableEq

/-- Value `showLocalPopup` resolves with when a dialog yields nothing: `false`
for a confirm dialog, `null` otherwise (index.js lines 224, 227, 230). -/
def popupDefault (ty : String) : JSVal :=
  if ty = "confirm" then .bool false else .null

/-- Embedding of the `close` handler of `handlePopupProcess` (index.js lines
213-229).  `fileWith c`: `existsSync` is true and `readFileSync` returns `c`
— the file is read, unlinked, and the trimmed content mapped to the resolved
value.  `fileReadError`: `existsSync` is true but `readFileSync` throws — the
`catch` resolves the default without reaching `unlinkSync`.  `noFile`:
`existsSync` is false — the default is resolved and no file exists.  The
second component records whether the temp file still exists afterwards. -/
def handlePopupProcessClose (ty : String) : PopupFileOutcome → JSVal × Bool
  | .fileWith content =>
    (if ty = "confirm" then .bool (jsTrim content == "true")
      else if jsTrim content ≠ "" then .str (jsTrim content) else .null,
     false)
  | .fileReadError => (popupDefault ty, true)
  | .noFile => (popupDefault ty, false)

/-- Embedding of the `error` handler of `handlePopupProcess` (index.js line
230): spawn failed, so PowerShell never ran and never created the result
file; the default is resolved and no temp file exists. -/
def handlePopupProcessError (ty : String) : JSVal × Bool :=
  (popupDefault ty, false)

/-! ## The JSON-RPC dispatcher of index.js -/

/-- The `name` fields of the `TOOLS` registry (index.js lines 234-353). -/
def TOOLS_NAMES : List String :=
  ["ask_continue", "ask_user", "notify", "optimize_command",
   "save_command_history", "get_command_history",
   "update_context_summary", "get_context_summary"]

/-- The results the eight registered tool handlers produced for the current
call; each handler is `await`ed by `handleToolCall`, so its already-computed
result stands in for the call. -/
structure ToolEnv where
  askContinue : ToolResult
  askUser : ToolResult
  notify : ToolResult
  optimizeCommand : ToolResult
  saveCommandHistory : ToolResult
  getCommandHistory : ToolResult
  updateContextSummary : ToolResult
  getContextSummary : ToolResult
deriving Repr, DecidableEq

/-- Embedding of `handleToolCall` (index.js lines 564-587): dispatch on the
tool name (the `switch`), with `.error` standing for the thrown
`new Error('Unknown tool: ' + name)` of the `default` branch. -/
def handleToolCall (env : ToolEnv) (name : String) : Except String ToolResult :=
  if name = "ask_continue" then .ok env.askContinue
  else if name = "ask_user" then .ok env.askUser
  else if name = "notify" then .ok env.notify
  else if name = "optimize_command" then .ok env.optimizeCommand
  else if name = "save_command_history" then .ok env.saveCommandHistory
  else if name = "get_command_history" then .ok env.getCommandHistory
  else if name = "update_context_summary" then .ok env.updateContextSummary
  else if name = "get_context_summary" then .ok env.getContextSummary
  else .error ("Unknown tool: " ++ name)

/-- A JSON-RPC request as destructured by `handleRequest`: `id` is absent for
notifications; `paramsName` is `params.name` used by `tools/call`. -/
structure RpcRequest where
  id : Option Int
  method : String
  paramsName : String
deriving Repr, DecidableEq

/-- One message written to stdout: `sendResponse` or `sendError`
(index.js lines 590-598); `initResult` and `toolsList` summarize the fixed
`initialize` and `tools/list` result payloads. -/
inductive RpcOut where
  | initResult : Option Int → RpcOut
  | toolsList : Option Int → List String → RpcOut
  | response : Option Int → ToolResult → RpcOut
  | rpcError : Int → Int → String → RpcOut
deriving Repr, DecidableEq

/-- Embedding of `handleRequest` (index.js lines 600-638): the `switch` on
`method`, with the surrounding `try`/`catch` that converts a throw from
`handleToolCall` into `sendError(id, -32603, message)` when `id` is present
and into silence otherwise.  `none` means no response is written. -/
def handleRequest (env : ToolEnv) (req : RpcRequest) : Option RpcOut :=
  if req.method = "initialize" then some (.initResult req.id)
  else if req.method = "tools/list" then some (.toolsList req.id TOOLS_NAMES)
  else if req.method = "tools/call" then
    match handleToolCall env req.paramsName with
    | .ok r => some (.response req.id r)
    | .error m =>
      match req.id with
      | some i => some (.rpcError i (-32603) m)
      | none => none
  else if req.method = "initialized" then none
  else if req.method = "notifications/cancelled" then none
  else
    match req.id with
    | some i => some (.rpcError i (-32601) ("Unknown method: " ++ req.method))
    | none => none

/-! ## The pending-command slot of mcpTools.ts -/

structure PendingState where
  currentPendingCommand : Option String
  pendingCommands : List String
deriving Repr, DecidableEq

/-- Embedding of `setPendingCommand` (mcpTools.ts lines 50-54). -/
def setPendingCommand (command : String) (s : PendingState) : PendingState :=
  { currentPendingCommand := some command,
    pendingCommands := s.pendingCommands ++ [command] }

/-- JS truthiness of a nullable string (`if (command)`): `null` and `""` are
falsy. -/
def jsTruthyOptStr : Option String → Bool
  | some c => c != ""
  | none => false

/-- Embedding of `getPendingCommand` (mcpTools.ts lines 57-64): read the
slot; clear it only when the read value is truthy (`if (command)`), so the
empty string is returned but never cleared; return the read value. -/
def getPendingCommand (s : PendingState) : Option String × PendingState :=
  let command := s.currentPendingCommand
  if jsTruthyOptStr command then
    (command, { s with currentPendingCommand := none })
  else (command, s)

/-- Text of `handleGetPendingCommand` when a truthy command was returned
(mcpTools.ts line 357). -/
def pendingCommandText (c : String) : String :=
  "WindsurfAutoMcp中有待处理的指令：\n\n" ++ c ++ "\n\n请执行此指令。"

/-- Text of `handleGetPendingCommand` when no truthy command was returned
(mcpTools.ts line 366). -/
def noPendingCommandText : String := "WindsurfAutoMcp中暂无待处理的指令。"

/-- Embedding of `handleGetPendingCommand` (mcpTools.ts lines 349-371):
consume the slot via `getPendingCommand` and wrap the outcome in a text
result (`if (command)` — truthiness again). -/
def handleGetPendingCommand (s : PendingState) : ToolResult × PendingState :=
  match getPendingCommand s with
  | (command, s2) =>
    if jsTruthyOptStr command then
      (⟨pendingCommandText ((match command with | some c => c | none => ""))⟩, s2)
    else (⟨noPendingCommandText⟩, s2)

/-! ## String containment lemmas -/

theorem isPrefixOf_append_self (pat y : List Char) : pat.isPrefixOf (pat ++ y) = true := by
  induction pat with
  | nil => simp [List.isPrefixOf]
  | cons c cs ih => simp [List.isPrefixOf, ih]

theorem listInfix_of_isPrefixOf (pat l : List Char) (h : pat.isPrefixOf l = true) :
    listInfix pat l = true := by
  cases l with
  | nil =>
    cases pat with
    | nil => simp [listInfix]
    | cons c cs => simp [List.isPrefixOf] at h
  | cons c rest => simp [listInfix, h]

theorem listInfix_cons_of (pat l : List Char) (c : Char) (h : listInfix pat l = true) :
    listInfix pat (c :: l) = true := by
  simp [listInfix, h]

theorem listInfix_append_left (x pat l : List Char) (h : listInfix pat l = true) :
    listInfix pat (x ++ l) = true := by
  induction x with
  | nil => simpa using h
  | cons c cs ih => simp only [List.cons_append]; exact listInfix_cons_of pat (cs ++ l) c ih

theorem strContains_middle (x s y : String) : strContains (x ++ s ++ y) s = true := by
  have hdata : (x ++ s ++ y).data = x.data ++ (s.data ++ y.data) := by
    rw [String.data_append, String.data_append, List.append_assoc]
  rw [strContains, hdata]
  exact listInfix_append_left x.data s.data (s.data ++ y.data)
    (listInfix_of_isPrefixOf s.data (s.data ++ y.data)
      (isPrefixOf_append_self s.data y.data))

theorem strContains_append_left (x s : String) : strContains (x ++ s) s = true := by
  have hdata : (x ++ s).data = x.data ++ s.data := String.data_append x s
  rw [strContains, hdata]
  exact listInfix_append_left x.data s.data s.data
    (listInfix_of_isPrefixOf s.data s.data
      (by have h := isPrefixOf_append_self s.data []
          rwa [List.append_nil] at h))

theorem strContains_self (s : String) : strContains s s = true := by
  rw [strContains]
  refine listInfix_of_isPrefixOf s.data s.data ?_
  have h := isPrefixOf_append_self s.data []
  rwa [List.append_nil] at h

theorem strAppend_assoc (a b c : String) : (a ++ b) ++ c = a ++ (b ++ c) := by
  apply String.ext
  simp [String.data_append, List.append_assoc]

/-! ## Claim theorems -/

/-- C1: every pending waiter is settled exactly once.  Whichever of
fulfilment (`handleVSCodeResponse`), timeout failure (`timeoutFire`) or
removal happens first deletes the waiter's entry from `pendingRequests`; with
no entry present both entry points are identity; and along any sequence of
responses and timeout firings that does not re-register `id`, the number of
settlements of `id` grows by at most one — and not at all if no waiter for
`id` was pending. -/
theorem c1_waiter_settled_at_most_once (s : BrokerState) (id : String) (v : JSVal)
    (es : List BrokerEvent) (hreg : ∀ e ∈ es, eventRegisters e id = false) :
    id ∉ (handleVSCodeResponse s id v).table
  ∧ id ∉ (timeoutFire s id).table
  ∧ (id ∉ s.table → handleVSCodeResponse s id v = s ∧ timeoutFire s id = s)
  ∧ settleCount (runEvents s es) id ≤ settleCount s id + 1
  ∧ (id ∈ s.table ∨ settleCount (runEvents s es) id = settleCount s id) := by
  have hrun1 : settleCount (runEvents s es) id ≤ waiterPotential (runEvents s es) id := by
    unfold waiterPotential
    exact Nat.le_add_right _ _
  have hrun2 := waiterPotential_run_le es s id hreg
  refine ⟨?_, ?_, ?_, ?_, ?_⟩
  · unfold handleVSCodeResponse
    by_cases h : id ∈ s.table
    · rw [if_pos h]
      exact notMem_filter_bne s.table id
    · rw [if_neg h]
      exact h
  · unfold timeoutFire
    by_cases h : id ∈ s.table
    · rw [if_pos h]
      exact notMem_filter_bne s.table id
    · rw [if_neg h]
      exact h
  · intro h
    constructor
    · unfold handleVSCodeResponse
      rw [if_neg h]
    · unfold timeoutFire
      rw [if_neg h]
  · have h3 : waiterPotential s id ≤ settleCount s id + 1 := by
      unfold waiterPotential
      split <;> omega
    omega
  · by_cases h : id ∈ s.table
    · exact Or.inl h
    · refine Or.inr ?_
      have h3 : waiterPotential s id = settleCount s id := by
        unfold waiterPotential
        rw [if_neg h]
        exact Nat.add_zero _
      have h4 := settleCount_run_mono es s id
      omega

/-- Witness for C1 at a concrete state: one pending waiter `"a"`, a response
followed by a late timeout firing and a second late response. -/
theorem c1_waiter_settled_at_most_once_witness :
    (∀ e ∈ [BrokerEvent.respond "a" (JSVal.str "x"), BrokerEvent.fire "a",
            BrokerEvent.respond "a" (JSVal.str "y")],
        eventRegisters e "a" = false)
  ∧ ("a" ∉ (handleVSCodeResponse ⟨["a"], []⟩ "a" (JSVal.str "x")).table
    ∧ "a" ∉ (timeoutFire ⟨["a"], []⟩ "a").table
    ∧ ("a" ∉ BrokerState.table ⟨["a"], []⟩ →
        handleVSCodeResponse ⟨["a"], []⟩ "a" (JSVal.str "x") = ⟨["a"], []⟩
        ∧ timeoutFire ⟨["a"], []⟩ "a" = ⟨["a"], []⟩)
    ∧ settleCount
        (runEvents ⟨["a"], []⟩
          [BrokerEvent.respond "a" (JSVal.str "x"), BrokerEvent.fire "a",
           BrokerEvent.respond "a" (JSVal.str "y")]) "a"
        ≤ settleCount ⟨["a"], []⟩ "a" + 1
    ∧ ("a" ∈ BrokerState.table ⟨["a"], []⟩
        ∨ settleCount
            (runEvents ⟨["a"], []⟩
              [BrokerEvent.respond "a" (JSVal.str "x"), BrokerEvent.fire "a",
               BrokerEvent.respond "a" (JSVal.str "y")]) "a"
          = settleCount ⟨["a"], []⟩ "a")) :=
  ⟨by decide,
   c1_waiter_settled_at_most_once ⟨["a"], []⟩ "a" (JSVal.str "x")
     [BrokerEvent.respond "a" (JSVal.str "x"), BrokerEvent.fire "a",
      BrokerEvent.respond "a" (JSVal.str "y")] (by decide)⟩

/-- C2: the timeout scheduled by `callVSCodeCommand` fires after the fixed
30000 ms deadline; if the waiter is still pending when it fires, the callback
removes it and rejects the promise with the Timeout error, otherwise it is a
no-op; and a response arriving after the timeout fired is also a no-op. -/
theorem c2_timeout_settles_exactly_once (s : BrokerState) (id : String) (v : JSVal) :
    (callVSCodeCommand s id).2 = 30000
  ∧ timeoutFire s id =
      (if id ∈ s.table then
        { table := s.table.filter (fun x => x != id),
          settled := s.settled ++ [(id, .rejected "VSCode command timeout")] }
       else s)
  ∧ handleVSCodeResponse (timeoutFire s id) id v = timeoutFire s id := by
  refine ⟨rfl, rfl, ?_⟩
  have hmem : id ∉ (timeoutFire s id).table := by
    unfold timeoutFire
    by_cases h : id ∈ s.table
    · rw [if_pos h]
      exact notMem_filter_bne s.table id
    · rw [if_neg h]
      exact h
  unfold handleVSCodeResponse
  rw [if_neg hmem]

/-- C3: resolving an unknown or already-removed requestId — through either
`handleVSCodeResponse` (mcp server) or `handleWebviewResponse` (extension) —
is a total no-op: the state, hence every other pending waiter and the
settlement log, is unchanged, and being total Lean functions they never
throw. -/
theorem c3_unknown_id_resolve_is_noop (s : BrokerState) (w : ExtBrokerState)
    (id : String) (v : JSVal) (h1 : id ∉ s.table) (h2 : id ∉ w.table) :
    handleVSCodeResponse s id v = s ∧ handleWebviewResponse w id v = w := by
  constructor
  · unfold handleVSCodeResponse
    rw [if_neg h1]
  · unfold handleWebviewResponse
    rw [if_neg h2]

/-- Witness for C3: a table holding only `"other"`, resolved with id `"gone"`. -/
theorem c3_unknown_id_resolve_is_noop_witness :
    ("gone" ∉ BrokerState.table ⟨["other"], []⟩)
  ∧ ("gone" ∉ ExtBrokerState.table ⟨["other"], []⟩)
  ∧ (handleVSCodeResponse ⟨["other"], []⟩ "gone" (JSVal.str "v") = ⟨["other"], []⟩
    ∧ handleWebviewResponse ⟨["other"], []⟩ "gone" (JSVal.str "v") = ⟨["other"], []⟩) :=
  ⟨by decide, by decide,
   c3_unknown_id_resolve_is_noop ⟨["other"], []⟩ ⟨["other"], []⟩ "gone" (JSVal.str "v")
     (by decide) (by decide)⟩

/-- C4: when the primary extension command rejects (including by timeout),
`handleAskContinue` and `handleAskUser` fall through to the local popup and
still return a textual result; when the popup path itself fails they return
the conservative default — the `should_continue=false` text for the continue
tool, `'false'` for a confirm, and `''` for an input — rather than
propagating the error. -/
theorem c4_fallback_then_conservative_default (e m : String)
    (pi : Except String (Option String)) (b : Bool) (oi : Option String) :
    handleAskContinue (.error e) (.error m) pi = ⟨fallbackFailText⟩
  ∧ handleAskContinue (.error e) (.ok true) (.error m) = ⟨fallbackFailText⟩
  ∧ strContains fallbackFailText "should_continue=false" = true
  ∧ handleAskContinue (.error e) (.ok false) pi
      = ⟨"结果: should_continue=false" ++ fallbackEndBlock⟩
  ∧ handleAskUser "confirm" (.error e) b oi = ⟨if b then "true" else "false"⟩
  ∧ handleAskUser "confirm" (.error e) false oi = ⟨"false"⟩
  ∧ handleAskUser "input" (.error e) b none = ⟨""⟩
  ∧ handleAskUser "info" (.error e) b oi = ⟨"acknowledged"⟩ := by
  refine ⟨rfl, rfl, by decide, ?_, rfl, rfl, rfl, rfl⟩
  have h4 : handleAskContinue (.error e) (.ok false) pi
      = ⟨"结果: should_continue=" ++ (if false then "true" else "false")
          ++ fallbackEndBlock⟩ := rfl
  rw [h4]
  have h5 : ("结果: should_continue=" ++ (if false then "true" else "false")
      ++ fallbackEndBlock : String) = "结果: should_continue=false" ++ fallbackEndBlock := by
    decide
  rw [h5]

/-- C5 counterexample: the claim quantifies over every non-empty follow-up
instruction, but the code keeps an instruction only when its `trim()` is
non-empty.  For the accepting answer `{continue: true, newInstruction: "\t"}`
the instruction is non-empty, yet the produced response text is the idle
variant and does not contain `"\t"` at all. -/
theorem c5_counterexample :
    ("\t" ≠ "")
  ∧ jsContinueFlag (JSVal.contAnswer true (some "\t")) = true
  ∧ strContains
      (handleAskContinue (Except.ok (JSVal.contAnswer true (some "\t")))
        (Except.ok false) (Except.ok none)).text "\t" = false := by
  refine ⟨by decide, rfl, by decide⟩

/-- C5 (amended): for every resolved continue-dialog answer, an explicit
decline yields the fixed `should_continue=false` text; an accepting answer
whose instruction is non-blank after trimming yields a text carrying the
`should_continue=true` marker and the instruction verbatim; and an accepting
answer whose instruction is missing or blank after trimming yields the
`should_continue=true` marker with the fixed idle tail and no instruction
block. -/
theorem c5_continue_decision (c : Bool) (ni : Option String) (ins : String)
    (pc : Except String Bool) (pi : Except String (Option String)) :
    (c = false →
      (handleAskContinue (.ok (.contAnswer c ni)) pc pi).text = contEndText
      ∧ strContains contEndText "should_continue=false" = true)
  ∧ (c = true → ni = some ins → jsTrim ins ≠ "" →
      (handleAskContinue (.ok (.contAnswer c ni)) pc pi).text
        = contTrueBase ++ instrBlock ins
      ∧ strContains ((handleAskContinue (.ok (.contAnswer c ni)) pc pi).text)
          "should_continue=true" = true
      ∧ strContains ((handleAskContinue (.ok (.contAnswer c ni)) pc pi).text) ins = true)
  ∧ (c = true → jsNewInstructionGiven (.contAnswer c ni) = false →
      (handleAskContinue (.ok (.contAnswer c ni)) pc pi).text = contTrueBase ++ idleBlock
      ∧ strContains (contTrueBase ++ idleBlock) "should_continue=true" = true) := by
  refine ⟨?_, ?_, ?_⟩
  · intro hc
    subst hc
    exact ⟨rfl, by decide⟩
  · intro hc hni htrim
    subst hc
    subst hni
    have hne : ins ≠ "" := by
      intro h0
      subst h0
      exact htrim rfl
    have hguard : jsNewInstructionGiven (.contAnswer true (some ins)) = true := by
      simp [jsNewInstructionGiven, hne, htrim]
    have htext : (handleAskContinue (.ok (.contAnswer true (some ins))) pc pi).text
        = contTrueBase ++ instrBlock ins := by
      simp [handleAskContinue, continueResponseText, jsContinueFlag, hguard,
        jsNewInstructionStr]
    refine ⟨htext, ?_, ?_⟩
    · rw [htext]
      have hsplit : contTrueBase ++ instrBlock ins
          = "结果: " ++ "should_continue=true" ++ instrBlock ins := by
        have : contTrueBase = "结果: " ++ "should_continue=true" := by decide
        rw [this]
      rw [hsplit]
      exact strContains_middle "结果: " "should_continue=true" (instrBlock ins)
    · rw [htext]
      have hsplit : contTrueBase ++ instrBlock ins
          = (contTrueBase ++ instrPre) ++ ins ++ instrPost := by
        rw [instrBlock, ← strAppend_assoc contTrueBase (instrPre ++ ins) instrPost,
          ← strAppend_assoc contTrueBase instrPre ins]
      rw [hsplit]
      exact strContains_middle (contTrueBase ++ instrPre) ins instrPost
  · intro hc hguard
    subst hc
    constructor
    · simp [handleAskContinue, continueResponseText, jsContinueFlag, hguard]
    · decide

/-- Witness for C5 (amended) at the accepting answer carrying the
instruction `"next step"`. -/
theorem c5_continue_decision_witness :
    ((true : Bool) = false →
      (handleAskContinue (.ok (.contAnswer true (some "next step")))
        (Except.ok false) (Except.ok none)).text = contEndText
      ∧ strContains contEndText "should_continue=false" = true)
  ∧ ((true : Bool) = true → some "next step" = some "next step" →
      jsTrim "next step" ≠ "" →
      (handleAskContinue (.ok (.contAnswer true (some "next step")))
        (Except.ok false) (Except.ok none)).text
        = contTrueBase ++ instrBlock "next step"
      ∧ strContains ((handleAskContinue (.ok (.contAnswer true (some "next step")))
          (Except.ok false) (Except.ok none)).text) "should_continue=true" = true
      ∧ strContains ((handleAskContinue (.ok (.contAnswer true (some "next step")))
          (Except.ok false) (Except.ok none)).text) "next step" = true)
  ∧ ((true : Bool) = true →
      jsNewInstructionGiven (.contAnswer true (some "next step")) = false →
      (handleAskContinue (.ok (.contAnswer true (some "next step")))
        (Except.ok false) (Except.ok none)).text = contTrueBase ++ idleBlock
      ∧ strContains (contTrueBase ++ idleBlock) "should_continue=true" = true) :=
  c5_continue_decision true (some "next step") "next step"
    (Except.ok false) (Except.ok none)

/-- C6 (code bug in `handleAskUser`): the ask_user requestId is
`input_${Date.now()}` with no random component, so two ask_user waiters
created in the same millisecond receive the *same* requestId — unlike
ask_continue ids, which carry a random suffix — and the second
`pendingRequests.set` leaves the key set unchanged: both outstanding waiters
collapse onto one table entry, the first waiter's entry being overwritten. -/
theorem c6_same_millisecond_requestId_collision :
    mkInputRequestId 1700000000000 = mkInputRequestId 1700000000000
  ∧ mkContinueRequestId 1700000000000 "abcdefghi" ≠ mkContinueRequestId 1700000000000 "jklmnopqr"
  ∧ ((callVSCodeCommand
        ((callVSCodeCommand ⟨[], []⟩ (mkInputRequestId 1700000000000)).1)
        (mkInputRequestId 1700000000000)).1).table.length = 1 := by
  refine ⟨rfl, by decide, by decide⟩

/-- C7: the free-text round trip.  Resolving a pending waiter with the string
`V` appends the fulfilment `(id, V)` verbatim to the settlement log; the
ask_user input mapping turns the resolved `V` into the result text `V`
itself; and `handleChatResponse` for an input reply settles the waiter with
exactly the user's response text — so the originating call's result contains
`V` verbatim. -/
theorem c7_free_text_round_trip (s : BrokerState) (w : ExtBrokerState) (id V : String)
    (b : Bool) (oi : Option String) (h1 : id ∈ s.table) (h2 : id ∈ w.table) :
    (handleVSCodeResponse s id (.str V)).settled
      = s.settled ++ [(id, .fulfilled (.str V))]
  ∧ handleAskUser "input" (.ok (.str V)) b oi = ⟨V⟩
  ∧ (handleChatResponse w id V .input).settled = w.settled ++ [(id, ⟨V⟩)]
  ∧ strContains V V = true := by
  refine ⟨?_, ?_, ?_, strContains_self V⟩
  · unfold handleVSCodeResponse
    rw [if_pos h1]
  · by_cases hV : V = ""
    · subst hV
      rfl
    · simp [handleAskUser, JSVal.truthy, jsValAsString, hV]
  · unfold handleChatResponse
    rw [if_pos h2]
    rfl

/-- Witness for C7 with the value `"hello"` against singleton tables. -/
theorem c7_free_text_round_trip_witness :
    ("q1" ∈ BrokerState.table ⟨["q1"], []⟩)
  ∧ ("q1" ∈ ExtBrokerState.table ⟨["q1"], []⟩)
  ∧ ((handleVSCodeResponse ⟨["q1"], []⟩ "q1" (.str "hello")).settled
      = [] ++ [("q1", .fulfilled (.str "hello"))]
    ∧ handleAskUser "input" (.ok (.str "hello")) false none = ⟨"hello"⟩
    ∧ (handleChatResponse ⟨["q1"], []⟩ "q1" "hello" .input).settled
        = [] ++ [("q1", ⟨"hello"⟩)]
    ∧ strContains "hello" "hello" = true) :=
  ⟨by decide, by decide,
   c7_free_text_round_trip ⟨["q1"], []⟩ ⟨["q1"], []⟩ "q1" "hello" false none
     (by decide) (by decide)⟩

/-- C8: a tools/call request naming a tool outside the registry makes
`handleToolCall` throw the fixed `Unknown tool: <name>` error, which the
dispatcher's catch converts into the JSON-RPC error response
`{id, code: -32603, message: 'Unknown tool: ' ++ name}` — the message names
the tool, carries the fixed `Unknown tool: ` class prefix, and the throw
never escapes `handleRequest` (it returns a response). -/
theorem c8_unknown_tool_error_response (env : ToolEnv) (i : Int) (name : String)
    (h : name ∉ TOOLS_NAMES) :
    handleToolCall env name = .error ("Unknown tool: " ++ name)
  ∧ handleRequest env ⟨some i, "tools/call", name⟩
      = some (.rpcError i (-32603) ("Unknown tool: " ++ name))
  ∧ strContains ("Unknown tool: " ++ name) name = true := by
  simp only [TOOLS_NAMES, List.mem_cons, List.not_mem_nil, or_false, not_or] at h
  obtain ⟨h1, h2, h3, h4, h5, h6, h7, h8⟩ := h
  have htc : handleToolCall env name = .error ("Unknown tool: " ++ name) := by
    unfold handleToolCall
    rw [if_neg h1, if_neg h2, if_neg h3, if_neg h4, if_neg h5, if_neg h6,
      if_neg h7, if_neg h8]
  refine ⟨htc, ?_, strContains_append_left "Unknown tool: " name⟩
  unfold handleRequest
  simp only [htc]
  rfl

/-- Witness for C8 at the unregistered name `"bogus_tool"`. -/
theorem c8_unknown_tool_error_response_witness :
    ("bogus_tool" ∉ TOOLS_NAMES)
  ∧ (handleToolCall ⟨⟨"a"⟩, ⟨"b"⟩, ⟨"c"⟩, ⟨"d"⟩, ⟨"e"⟩, ⟨"f"⟩, ⟨"g"⟩, ⟨"h"⟩⟩ "bogus_tool"
      = .error ("Unknown tool: " ++ "bogus_tool")
    ∧ handleRequest ⟨⟨"a"⟩, ⟨"b"⟩, ⟨"c"⟩, ⟨"d"⟩, ⟨"e"⟩, ⟨"f"⟩, ⟨"g"⟩, ⟨"h"⟩⟩
        ⟨some 7, "tools/call", "bogus_tool"⟩
        = some (.rpcError 7 (-32603) ("Unknown tool: " ++ "bogus_tool"))
    ∧ strContains ("Unknown tool: " ++ "bogus_tool") "bogus_tool" = true) :=
  ⟨by decide,
   c8_unknown_tool_error_response ⟨⟨"a"⟩, ⟨"b"⟩, ⟨"c"⟩, ⟨"d"⟩, ⟨"e"⟩, ⟨"f"⟩, ⟨"g"⟩, ⟨"h"⟩⟩
     7 "bogus_tool" (by decide)⟩

/-- C9 counterexample: on the read-failure path (`existsSync` true but
`readFileSync` throws) the `catch` of `handlePopupProcess` resolves the
conservative default without ever reaching `unlinkSync`, so the temp file
survives the dialog — the claim's "deleted on every path, including read
failure" is false at this input. -/
theorem c9_counterexample :
    (handlePopupProcessClose "input" PopupFileOutcome.fileReadError).1 = JSVal.null
  ∧ (handlePopupProcessClose "input" PopupFileOutcome.fileReadError).2 = true := by
  exact ⟨rfl, rfl⟩

/-- C9 (amended): on normal completion the file is read, deleted and the
content mapped; on the missing-file path and on a spawn error no file exists
afterwards (on spawn error PowerShell never ran, so none was created); but on
a read failure the promise still resolves with the conservative default while
the temp file remains on disk. -/
theorem c9_temp_file_release (ty content : String) :
    (handlePopupProcessClose ty (.fileWith content)).2 = false
  ∧ (handlePopupProcessClose ty .noFile).2 = false
  ∧ (handlePopupProcessError ty).2 = false
  ∧ (handlePopupProcessClose ty .fileReadError).1 = popupDefault ty
  ∧ (handlePopupProcessClose ty .fileReadError).2 = true :=
  ⟨rfl, rfl, rfl, rfl, rfl⟩

/-- C10 counterexample: the claim quantifies over every command, but for the
empty string the slot read is falsy, so `getPendingCommand` does *not* clear
the slot and a second call returns `""` again instead of `null`. -/
theorem c10_counterexample :
    (getPendingCommand (getPendingCommand (setPendingCommand "" ⟨none, []⟩)).2).1 = some ""
  ∧ some "" ≠ (none : Option String) := by
  exact ⟨rfl, by decide⟩

/-- C10 (amended): for every non-empty command `c`, the handoff is
consume-on-read — the first `getPendingCommand` returns `c` and clears the
slot, a second read with no intervening set returns `null`, a newer
`setPendingCommand` overwrites the undelivered current command, and at the
tool level `handleGetPendingCommand` delivers `c` exactly once, reporting
"no pending command" on the second call. -/
theorem c10_pending_command_consume_on_read (c c2 : String) (s : PendingState)
    (h : c ≠ "") :
    (getPendingCommand (setPendingCommand c s)).1 = some c
  ∧ (getPendingCommand (setPendingCommand c s)).2.currentPendingCommand = none
  ∧ (getPendingCommand (getPendingCommand (setPendingCommand c s)).2).1 = none
  ∧ (setPendingCommand c2 (setPendingCommand c s)).currentPendingCommand = some c2
  ∧ (handleGetPendingCommand (setPendingCommand c s)).1 = ⟨pendingCommandText c⟩
  ∧ (handleGetPendingCommand (handleGetPendingCommand (setPendingCommand c s)).2).1
      = ⟨noPendingCommandText⟩ := by
  have hb : (c != "") = true := bne_iff_ne.mpr h
  refine ⟨?_, ?_, ?_, rfl, ?_, ?_⟩ <;>
    simp [getPendingCommand, setPendingCommand, handleGetPendingCommand,
      jsTruthyOptStr, hb]

/-- Witness for C10 (amended) at the command `"deploy"`. -/
theorem c10_pending_command_consume_on_read_witness :
    ("deploy" ≠ "")
  ∧ ((getPendingCommand (setPendingCommand "deploy" ⟨none, []⟩)).1 = some "deploy"
    ∧ (getPendingCommand (setPendingCommand "deploy" ⟨none, []⟩)).2.currentPendingCommand
        = none
    ∧ (getPendingCommand
        (getPendingCommand (setPendingCommand "deploy" ⟨none, []⟩)).2).1 = none
    ∧ (setPendingCommand "next" (setPendingCommand "deploy" ⟨none, []⟩)).currentPendingCommand
        = some "next"
    ∧ (handleGetPendingCommand (setPendingCommand "deploy" ⟨none, []⟩)).1
        = ⟨pendingCommandText "deploy"⟩
    ∧ (handleGetPendingCommand
        (handleGetPendingCommand (setPendingCommand "deploy" ⟨none, []⟩)).2).1
        = ⟨noPendingCommandText⟩) :=
  ⟨by decide,
   c10_pending_command_consume_on_read "deploy" "next" ⟨none, []⟩ (by decide)⟩
